import Mathlib

/-!
Verification of the contaminant dashboard (streamlit_app.py).

The file shallowly embeds the data pipeline of the app:
tables are lists of records, numeric cells are `Option Rat`
(`none` models pandas NaN), date cells are `Option Int` holding the
day encoded as yyyymmdd (`none` models NaT), and functions that can
raise Python exceptions return `Except String`.

Library behaviour embedded alongside the app code:
`pd.to_numeric(..., errors=coerce)` and `pd.to_datetime(..., errors=coerce)`
map unparseable cells to missing; `Series.mean` skips missing cells and is
missing on an all-missing column; `folium.Map` and `folium.Marker` reject a
location containing a missing (NaN) coordinate with a ValueError;
`DataFrame.drop_duplicates` keeps the first occurrence of each key and
treats missing values as equal; column access on an absent column raises a
KeyError.  Non-NaN float cells are modelled by `PFloat`: finite values kept
exact as rationals (rounding and underflow of finite values are not
modelled) plus the signed infinities, which the numeric parser produces
for infinity literals and for scientific notation at or beyond the float64
overflow threshold; dates are calendar-checked only up to day 31.
-/

/-- A non-NaN float64 value: a finite value (kept exact as a rational) or a
signed infinity. -/
inductive PFloat where
  | fin (q : Rat)
  | pinf
  | ninf
  deriving DecidableEq, Repr

/-- float64 addition on non-NaN values; opposite infinities give NaN. -/
def PFloat.add : PFloat → PFloat → Option PFloat
  | .fin a, .fin b => some (.fin (a + b))
  | .fin _, .pinf => some .pinf
  | .fin _, .ninf => some .ninf
  | .pinf, .fin _ => some .pinf
  | .pinf, .pinf => some .pinf
  | .pinf, .ninf => none
  | .ninf, .fin _ => some .ninf
  | .ninf, .pinf => none
  | .ninf, .ninf => some .ninf

/-- Sum of a list of non-NaN floats; a NaN arising from opposite
infinities propagates. -/
def pfSum : List PFloat → Option PFloat
  | [] => some (.fin 0)
  | x :: xs => (pfSum xs).bind (PFloat.add x)

/-- Division of a non-NaN float by a count, for the column mean. -/
def PFloat.divNat : PFloat → Nat → PFloat
  | .fin q, n => .fin (q / (n : Rat))
  | .pinf, _ => .pinf
  | .ninf, _ => .ninf

/-- Positive reals at or above this threshold round to +inf in float64;
the literal is the exact value of 2 ^ 1024 - 2 ^ 971, spelled out because
large exponentials do not reduce under `decide`. -/
def floatOverflow : Rat := ((179769313486231570814527423731704356798070567525844996598917476803157260780028538760589558632766878171540458953514382464234321326889464182768467546703537516986049910576551282076245490090389328944075868508455133942304583236903222948165808559332123348274797826204144723168738177180919299881250404026184124858368 : Nat) : Rat)

/-- Whitespace stripped from a cell before parsing. -/
def isWs (c : Char) : Bool :=
  c = ' ' || c = '\t' || c = '\n' || c = '\r'

/-- Lower-case an ASCII letter (code points 65-90 shift by 32). -/
def lowerChar (c : Char) : Char :=
  let n := c.toNat
  if 65 ≤ n && n ≤ 90 then Char.ofNat (n + 32) else c

/-- Digit value of a character (code points 48-57). -/
def digitVal (c : Char) : Option Nat :=
  let n := c.toNat
  if 48 ≤ n && n ≤ 57 then some (n - 48) else none

/-- Strip leading and trailing whitespace from a character sequence. -/
def listTrim (l : List Char) : List Char :=
  ((l.dropWhile isWs).reverse.dropWhile isWs).reverse

/-- Split a character sequence at every occurrence of the separator, like
`String.splitOn` with a one-character separator. -/
def splitOnChar (c : Char) : List Char → List (List Char)
  | [] => [[]]
  | x :: xs =>
      let r := splitOnChar c xs
      if x = c then [] :: r
      else
        match r with
        | h :: t => (x :: h) :: t
        | [] => [[x]]

/-- Digit sequence to a natural number; empty or non-digit input is
rejected. -/
def digitsToNat (l : List Char) : Option Nat :=
  if l.isEmpty then none
  else
    l.foldl (fun acc c =>
      match acc, digitVal c with
      | some a, some d => some (a * 10 + d)
      | _, _ => none) (some 0)

/-- Unsigned decimal mantissa: "12", "12.5", "12.", ".5". -/
def parseMantissa (l : List Char) : Option Rat :=
  match splitOnChar (Char.ofNat 46) l with
  | [ip] => (digitsToNat ip).map (fun n => (n : Rat))
  | [ip, fp] =>
      if ip.isEmpty && fp.isEmpty then none
      else
        let ipn := if ip.isEmpty then some 0 else digitsToNat ip
        let fpn := if fp.isEmpty then some 0 else digitsToNat fp
        match ipn, fpn with
        | some a, some b =>
            some ((a : Rat) + (b : Rat) / ((10 : Rat) ^ fp.length))
        | _, _ => none
  | _ => none

/-- Signed integer exponent of scientific notation. -/
def parseExp : List Char → Option Int
  | '-' :: rest => (digitsToNat rest).map (fun n => -(n : Int))
  | '+' :: rest => (digitsToNat rest).map (fun n => (n : Int))
  | l => (digitsToNat l).map (fun n => (n : Int))

/-- Best-effort numeric parser: model of `pd.to_numeric(cell, errors=coerce)`
on a single cell, `none` for NaN.  Like the pandas parser it accepts a
sign, decimal notation, scientific notation (overflowing to a signed
infinity at the float64 threshold) and the infinity literals
"inf"/"infinity" in any case. -/
def toNumeric (s : String) : Option PFloat :=
  let t := listTrim s.data
  let neg := t.head? == some (Char.ofNat 45)
  let signless :=
    match t with
    | '-' :: rest => rest
    | '+' :: rest => rest
    | l => l
  let body := signless.map lowerChar
  if body = ['i', 'n', 'f'] ||
      body = ['i', 'n', 'f', 'i', 'n', 'i', 't', 'y'] then
    some (if neg then PFloat.ninf else PFloat.pinf)
  else
    let parts :=
      match splitOnChar (Char.ofNat 101) body with
      | [m] => (parseMantissa m, some (0 : Int))
      | [m, es] => (parseMantissa m, parseExp es)
      | _ => (none, none)
    match parts with
    | (some m, some e) =>
        let scale : Rat :=
          if 0 ≤ e then (10 : Rat) ^ e.toNat
          else 1 / (10 : Rat) ^ (-e).toNat
        let v : Rat := m * scale
        if floatOverflow ≤ v then some (if neg then .ninf else .pinf)
        else some (.fin (if neg then -v else v))
    | _ => none

/-- Restrict a parsed value to the finite domain.  The measurement-value
column is modelled over finite rationals, a non-finite parse behaving as
missing; for the range filter with finite bounds this is observationally
the float behaviour, since an infinite value and a NaN both fail the
closed-interval test. -/
def PFloat.toFinite : PFloat → Option Rat
  | .fin q => some q
  | _ => none

/-- Model of `pd.to_datetime(cell, errors=coerce)` on a single ISO
`YYYY-MM-DD` cell: the timestamp is encoded as yyyymmdd (order-preserving),
`none` for NaT. -/
def parseDate (s : String) : Option Int :=
  match s.trim.splitOn "-" with
  | [ys, ms, ds] =>
      match ys.toNat?, ms.toNat?, ds.toNat? with
      | some y, some m, some d =>
          if 1 ≤ m && m ≤ 12 && 1 ≤ d && d ≤ 31 then
            some ((y : Int) * 10000 + (m : Int) * 100 + (d : Int))
          else none
      | _, _, _ => none
  | _ => none

/-- `DataFrame.drop_duplicates(subset=...)`: keep the first row for each
key, where `seen` carries the keys of rows already kept. -/
def dropDupAux {α κ : Type} [DecidableEq κ] (key : α → κ) :
    List κ → List α → List α
  | _, [] => []
  | seen, x :: xs =>
      if key x ∈ seen then dropDupAux key seen xs
      else x :: dropDupAux key (key x :: seen) xs

/-- `DataFrame.drop_duplicates(subset=...)` with `keep=first` (the default). -/
def dropDuplicatesBy {α κ : Type} [DecidableEq κ] (key : α → κ)
    (l : List α) : List α :=
  dropDupAux key [] l

/-- One row of the site CSV as `pd.read_csv(file_path, dtype=str)` delivers
it: every column a string. -/
structure RawSiteRow where
  name : String
  latS : String
  lonS : String
  deriving DecidableEq, Repr

/-- One row of the site table after coordinate coercion: `none` latitude or
longitude models NaN; a coordinate may also be a signed infinity, which
`dropna` does not remove. -/
structure SiteRow where
  name : String
  lat : Option PFloat
  lon : Option PFloat
  deriving DecidableEq, Repr

/-- The `drop_duplicates` key of `load_and_filter_sites`:
(MonitoringLocationName, LatitudeMeasure, LongitudeMeasure). -/
def siteKey (r : SiteRow) : String × Option PFloat × Option PFloat :=
  (r.name, r.lat, r.lon)

/-- `load_and_filter_sites` (streamlit_app.py lines 10-23): read all columns
as text, coerce LatitudeMeasure and LongitudeMeasure with
`pd.to_numeric(errors=coerce)`, drop duplicate (name, lat, lon) rows, then
drop rows with a missing coordinate. -/
def load_and_filter_sites (rows : List RawSiteRow) : List SiteRow :=
  let df := rows.map (fun r => ⟨r.name, toNumeric r.latS, toNumeric r.lonS⟩)
  let unique_sites := dropDuplicatesBy siteKey df
  unique_sites.filter (fun r => r.lat.isSome && r.lon.isSome)

theorem dropDupAux_mem_key {α κ : Type} [DecidableEq κ] (key : α → κ) :
    ∀ (seen : List κ) (l : List α) (y : α),
      y ∈ dropDupAux key seen l → key y ∉ seen := by
  intro seen l
  induction l generalizing seen with
  | nil => intro y hy; simp [dropDupAux] at hy
  | cons x xs ih =>
      intro y hy
      by_cases hx : key x ∈ seen
      · simp only [dropDupAux, if_pos hx] at hy
        exact ih seen y hy
      · simp only [dropDupAux, if_neg hx, List.mem_cons] at hy
        rcases hy with hy | hy
        · subst hy; exact hx
        · intro hmem
          exact ih (key x :: seen) y hy (List.mem_cons_of_mem _ hmem)

theorem dropDupAux_pairwise {α κ : Type} [DecidableEq κ] (key : α → κ) :
    ∀ (seen : List κ) (l : List α),
      (dropDupAux key seen l).Pairwise (fun a b => key a ≠ key b) := by
  intro seen l
  induction l generalizing seen with
  | nil => simp [dropDupAux]
  | cons x xs ih =>
      by_cases hx : key x ∈ seen
      · simpa [dropDupAux, if_pos hx] using ih seen
      · simp only [dropDupAux, if_neg hx]
        refine List.Pairwise.cons ?_ (ih (key x :: seen))
        intro y hy hkey
        exact dropDupAux_mem_key key _ _ y hy (by simp [hkey])

theorem dropDupAux_idem {α κ : Type} [DecidableEq κ] (key : α → κ) :
    ∀ (seen : List κ) (l : List α),
      dropDupAux key seen (dropDupAux key seen l) = dropDupAux key seen l := by
  intro seen l
  induction l generalizing seen with
  | nil => simp [dropDupAux]
  | cons x xs ih =>
      by_cases hx : key x ∈ seen
      · simp only [dropDupAux, if_pos hx]
        exact ih seen
      · simp only [dropDupAux, if_neg hx]
        rw [ih (key x :: seen)]

theorem load_and_filter_sites_sub (rows : List RawSiteRow) :
    ∀ r ∈ load_and_filter_sites rows, r.lat.isSome ∧ r.lon.isSome := by
  intro r hr
  unfold load_and_filter_sites at hr
  simp only [List.mem_filter, Bool.and_eq_true] at hr
  exact ⟨hr.2.1, hr.2.2⟩

/-- C5 counterexample: `pd.to_numeric` parses the coordinate cells "inf"
and "-inf" to the infinities, which are not missing and therefore survive
`dropna`: a site record with non-finite coordinates remains in the output,
refuting the finiteness conjunct of the claim. -/
theorem load_and_filter_sites_inf_survives :
    load_and_filter_sites [⟨"A", "inf", "-inf"⟩] =
      [⟨"A", some PFloat.pinf, some PFloat.ninf⟩] := by
  decide

/-- C5 amended: after `load_and_filter_sites`, every remaining site record
has both coordinates present as (non-missing, though possibly infinite)
numbers, and the remaining records are pairwise distinct under the key
(name, latitude, longitude). -/
theorem load_and_filter_sites_valid (rows : List RawSiteRow) :
    (∀ r ∈ load_and_filter_sites rows, r.lat.isSome ∧ r.lon.isSome) ∧
      (load_and_filter_sites rows).Pairwise (fun a b => siteKey a ≠ siteKey b) := by
  refine ⟨load_and_filter_sites_sub rows, ?_⟩
  unfold load_and_filter_sites
  exact ((dropDupAux_pairwise siteKey [] _).sublist (List.filter_sublist _)).imp id

theorem load_and_filter_sites_valid_witness :
    (∀ r ∈ load_and_filter_sites
        [⟨"A", "38.0", "-84.5"⟩, ⟨"A", "38.0", "-84.5"⟩, ⟨"B", "oops", "0"⟩],
      r.lat.isSome ∧ r.lon.isSome) ∧
    (load_and_filter_sites
        [⟨"A", "38.0", "-84.5"⟩, ⟨"A", "38.0", "-84.5"⟩, ⟨"B", "oops", "0"⟩]).Pairwise
      (fun a b => siteKey a ≠ siteKey b) :=
  load_and_filter_sites_valid
    [⟨"A", "38.0", "-84.5"⟩, ⟨"A", "38.0", "-84.5"⟩, ⟨"B", "oops", "0"⟩]

/-- C8: deduplication of site records by (name, latitude, longitude) is
idempotent: applying `drop_duplicates` twice yields what applying it once
yields. -/
theorem dropDuplicates_idempotent (l : List SiteRow) :
    dropDuplicatesBy siteKey (dropDuplicatesBy siteKey l) =
      dropDuplicatesBy siteKey l :=
  dropDupAux_idem siteKey [] l

/-- One row of the contaminant table after `load_contaminant_data`:
ResultMeasureValue is numeric (`none` = NaN) and ActivityStartDate is a
timestamp (`none` = NaT); MonitoringLocationIdentifier and
CharacteristicName stay text; latitude/longitude are numeric when the
columns exist. -/
structure MRow where
  site : String
  char : String
  value : Option Rat
  date : Option Int
  lat : Option PFloat
  lon : Option PFloat
  deriving DecidableEq, Repr

/-- The contaminant DataFrame: `hasLoc` records whether the
LatitudeMeasure/LongitudeMeasure columns are present (column presence is a
table-level fact in pandas). -/
structure MTable where
  hasLoc : Bool
  rows : List MRow
  deriving DecidableEq, Repr

/-- Row predicate of line 57: `df[CharacteristicName] == contaminant`. -/
def charMatches (contaminant : String) (r : MRow) : Bool :=
  r.char == contaminant

/-- Row predicate of lines 60-61: `value_range[0] <= ResultMeasureValue <=
value_range[1]`; a NaN value compares False. -/
def valueInRange (value_range : Rat × Rat) (r : MRow) : Bool :=
  match r.value with
  | some v => decide (value_range.1 ≤ v) && decide (v ≤ value_range.2)
  | none => false

/-- Row predicate of lines 67-68: `date_range[0] <= ActivityStartDate <=
date_range[1]`; a NaT date compares False. -/
def dateInRange (date_range : Int × Int) (r : MRow) : Bool :=
  match r.date with
  | some t => decide (date_range.1 ≤ t) && decide (t ≤ date_range.2)
  | none => false

/-- `filter_data` (streamlit_app.py lines 55-70): filter by contaminant,
then by value range, then by date range.  The first component is the
caller's `df` after the call (no statement assigns into it); the second is
the returned filtered frame. -/
def filter_data (df : MTable) (contaminant : String)
    (value_range : Rat × Rat) (date_range : Int × Int) : MTable × MTable :=
  let f1 := df.rows.filter (charMatches contaminant)
  let f2 := f1.filter (valueInRange value_range)
  let f3 := f2.filter (dateInRange date_range)
  (df, ⟨df.hasLoc, f3⟩)

/-- C3: the filter's output rows form a subset (sublist) of the input rows,
and every output row matches the selected characteristic, has a present
value inside the closed value interval, and a present date inside the
closed date interval; rows with missing value or date are never kept. -/
theorem filter_data_sound (df : MTable) (contaminant : String)
    (value_range : Rat × Rat) (date_range : Int × Int) :
    ((filter_data df contaminant value_range date_range).2.rows).Sublist df.rows ∧
    ∀ r ∈ (filter_data df contaminant value_range date_range).2.rows,
      r.char = contaminant ∧
      (∃ v, r.value = some v ∧ value_range.1 ≤ v ∧ v ≤ value_range.2) ∧
      (∃ t, r.date = some t ∧ date_range.1 ≤ t ∧ t ≤ date_range.2) := by
  constructor
  · exact ((List.filter_sublist _).trans (List.filter_sublist _)).trans
      (List.filter_sublist _)
  · intro r hr
    simp only [filter_data, List.mem_filter] at hr
    obtain ⟨⟨⟨_, hchar⟩, hval⟩, hdate⟩ := hr
    refine ⟨by simpa [charMatches] using hchar, ?_, ?_⟩
    · unfold valueInRange at hval
      cases hv : r.value with
      | none => rw [hv] at hval; simp at hval
      | some v =>
          rw [hv] at hval
          simp only [Bool.and_eq_true, decide_eq_true_eq] at hval
          exact ⟨v, rfl, hval.1, hval.2⟩
    · unfold dateInRange at hdate
      cases hd : r.date with
      | none => rw [hd] at hdate; simp at hdate
      | some t =>
          rw [hd] at hdate
          simp only [Bool.and_eq_true, decide_eq_true_eq] at hdate
          exact ⟨t, rfl, hdate.1, hdate.2⟩

/-- Row 1 of the spec's worked example: Lead, 5, 2020-01-01. -/
def exRow1 : MRow := ⟨"S1", "Lead", some 5, some 20200101, none, none⟩

/-- Row 2 of the spec's worked example: Lead, 50, 2020-06-01. -/
def exRow2 : MRow := ⟨"S1", "Lead", some 50, some 20200601, none, none⟩

/-- Row 3 of the spec's worked example: Zinc, 10, 2020-03-01. -/
def exRow3 : MRow := ⟨"S2", "Zinc", some 10, some 20200301, none, none⟩

/-- C9: on the three example rows, filtering with characteristic Lead,
value range [0, 10] and date range [2020-01-01, 2020-12-31] keeps exactly
the first row. -/
theorem filter_data_example :
    (filter_data ⟨false, [exRow1, exRow2, exRow3]⟩ "Lead" (0, 10)
        (20200101, 20201231)).2.rows = [exRow1] := by
  decide

theorem filter_data_sound_witness :
    (exRow1.char = "Lead" ∧
      (∃ v, exRow1.value = some v ∧ (0 : Rat) ≤ v ∧ v ≤ 10) ∧
      (∃ t, exRow1.date = some t ∧ (20200101 : Int) ≤ t ∧ t ≤ 20201231)) :=
  (filter_data_sound ⟨false, [exRow1, exRow2, exRow3]⟩ "Lead" (0, 10)
      (20200101, 20201231)).2 exRow1 (by decide)

/-- A rendered folium map: center location, zoom, and the markers in the
order they were added; each marker is ((lat, lon), popup text). -/
structure FMap where
  center : Rat × Rat
  zoom : Nat
  markers : List ((Rat × Rat) × String)
  deriving DecidableEq, Repr

/-- folium location validation: a location with a missing (NaN) or
non-finite coordinate raises a ValueError inside `folium.Map` /
`folium.Marker`. -/
def validateLoc : Option PFloat × Option PFloat → Except String (Rat × Rat)
  | (some (.fin a), some (.fin b)) => .ok (a, b)
  | _ => .error "ValueError: Location values cannot contain NaNs and infinities."

/-- `Series.mean()`: skip missing cells; mean of an empty or all-missing
column is missing (NaN); infinities follow float arithmetic, opposite
infinities summing to NaN. -/
def colMean (xs : List (Option PFloat)) : Option PFloat :=
  let vs := xs.filterMap id
  if vs.length = 0 then none
  else (pfSum vs).map (fun s => s.divNat vs.length)

/-- `plot_sites_on_map` (streamlit_app.py lines 25-42): raise ValueError on
an empty table, else center a map at the mean coordinates and add one
marker per row, with the site name as popup. -/
def plot_sites_on_map (sites_df : List SiteRow) : Except String FMap :=
  if sites_df.isEmpty then
    .error "ValueError: No valid monitoring sites to plot."
  else do
    let c ← validateLoc (colMean (sites_df.map (·.lat)),
                         colMean (sites_df.map (·.lon)))
    let ms ← sites_df.mapM (fun r => do
      let l ← validateLoc (r.lat, r.lon)
      pure (l, r.name))
    .ok ⟨c, 6, ms⟩

/-- `plot_filtered_map` (streamlit_app.py lines 107-121): select the
[MonitoringLocationIdentifier, LatitudeMeasure, LongitudeMeasure] columns
(a KeyError if the location columns are absent), drop duplicate triples,
center a map at the mean coordinates, and add one marker per unique site,
with the identifier as popup.  There is no emptiness check and no re-join
of location columns from any other table. -/
def plot_filtered_map (filtered_df : MTable) : Except String FMap :=
  if ¬filtered_df.hasLoc then
    .error "KeyError: [LatitudeMeasure, LongitudeMeasure] not in index"
  else
    let unique_sites := dropDuplicatesBy id
      (filtered_df.rows.map (fun r => (r.site, r.lat, r.lon)))
    do
      let c ← validateLoc (colMean (unique_sites.map (·.2.1)),
                           colMean (unique_sites.map (·.2.2)))
      let ms ← unique_sites.mapM (fun p => do
        let l ← validateLoc (p.2.1, p.2.2)
        pure (l, p.1))
      .ok ⟨c, 6, ms⟩

/-- C1 counterexample: on a non-empty filtered table that lacks the
location columns, `plot_filtered_map` raises (a KeyError) instead of
left-joining coordinates or skipping with a warning; no non-error outcome
exists for such input. -/
theorem plot_filtered_map_noloc_raises :
    (plot_filtered_map ⟨false, [exRow1]⟩).isOk = false := by
  decide

/-- C1 amended: the filtered-map renderer receives only the filtered table
(no original table to join from); whenever the location columns are absent
it raises a KeyError — location columns are never joined in and rendering
is never skipped with a warning. -/
theorem plot_filtered_map_noloc (t : MTable) (h : t.hasLoc = false) :
    plot_filtered_map t =
      .error "KeyError: [LatitudeMeasure, LongitudeMeasure] not in index" := by
  simp [plot_filtered_map, h]

theorem plot_filtered_map_noloc_witness :
    plot_filtered_map ⟨false, []⟩ =
      .error "KeyError: [LatitudeMeasure, LongitudeMeasure] not in index" :=
  plot_filtered_map_noloc ⟨false, []⟩ rfl

/-- C2: an empty site set makes both map renderers fail with an error
rather than render a map with zero points: `plot_sites_on_map` raises its
own ValueError, and `plot_filtered_map` (which has no explicit check)
raises through the map library, whose center — the mean of an empty
column — is NaN (or a KeyError when the location columns are absent). -/
theorem empty_sites_map_error :
    (plot_sites_on_map []).isOk = false ∧
    ∀ t : MTable, t.rows = [] → (plot_filtered_map t).isOk = false := by
  constructor
  · decide
  · intro t ht
    obtain ⟨hasLoc, rows⟩ := t
    cases ht
    cases hasLoc <;> decide

theorem empty_sites_map_error_witness :
    (plot_filtered_map ⟨true, []⟩).isOk = false :=
  empty_sites_map_error.2 ⟨true, []⟩ rfl

/-- A date cell of the trend renderer's input column, which may still be
text (object dtype) or already a timestamp (datetime64, `none` = NaT). -/
inductive DCell where
  | s (v : String)
  | d (v : Option Int)
  deriving DecidableEq, Repr

/-- `pd.to_datetime(col, errors=coerce)` on one cell: parse a text cell,
keep an already-typed cell. -/
def toDatetime : DCell → Option Int
  | .s v => parseDate v
  | .d v => v

/-- One row as `plot_dual_characteristics` sees it. -/
structure PRow where
  site : String
  char : String
  value : Option Rat
  date : DCell
  deriving DecidableEq, Repr

/-- Line 84: `df[date_col] = pd.to_datetime(df[date_col], errors=coerce)`,
on one row. -/
def coerceRow (r : PRow) : PRow :=
  { r with date := .d (toDatetime r.date) }

/-- Line 84 applied to the whole column; this assignment lands in the
caller's frame. -/
def coerceDates (df : List PRow) : List PRow :=
  df.map coerceRow

/-- Line 85: `dropna(subset=[date, value, site, char])`; site and char are
strings and never missing in this model. -/
def rowComplete (r : PRow) : Bool :=
  (toDatetime r.date).isSome && r.value.isSome

/-- The groupby key of line 93: (MonitoringLocationIdentifier,
CharacteristicName). -/
def pairKey (r : PRow) : String × String :=
  (r.site, r.char)

/-- Comparison used by `sort_values(date_col)` (line 94); every row reaching
the sort has a present date, so the `getD` default is never consulted. -/
def dateLe (a b : PRow) : Bool :=
  decide ((toDatetime a.date).getD 0 ≤ (toDatetime b.date).getD 0)

/-- Insert a row into a date-sorted list, keeping earlier rows first on
ties. -/
def insertByDate (r : PRow) : List PRow → List PRow
  | [] => [r]
  | x :: xs => if dateLe r x then r :: x :: xs else x :: insertByDate r xs

/-- `group.sort_values(date_col)` (line 94): sort a group chronologically. -/
def sortByDate : List PRow → List PRow
  | [] => []
  | x :: xs => insertByDate x (sortByDate xs)

/-- `plot_dual_characteristics`, lines 84-96: coerce dates, drop incomplete
rows, restrict to the selected characteristics, group by (site, char) and
sort each group chronologically, labelling it "site - char".  pandas
`groupby` additionally sorts the group keys; only the order of groups, not
their number or content, differs here. -/
def trendGroups (df : List PRow) (characteristics : List String) :
    List (String × List PRow) :=
  let df2 := (coerceDates df).filter rowComplete
  let df_filtered := df2.filter (fun r => characteristics.contains r.char)
  let keys := dropDuplicatesBy id (df_filtered.map pairKey)
  keys.map (fun k =>
    (k.1 ++ " - " ++ k.2,
     sortByDate (df_filtered.filter (fun r => pairKey r == k))))

/-- `plot_dual_characteristics` (streamlit_app.py lines 73-104): raise
ValueError unless 1 or 2 characteristics are given, else render.  The
result carries the caller-visible state of `df` after the call (line 84
assigns into the caller's frame; the later `df = df.dropna(...)` only
rebinds the local name) together with the drawn line groups. -/
def plot_dual_characteristics (df : List PRow) (characteristics : List String) :
    Except String (List PRow × List (String × List PRow)) :=
  if 1 ≤ characteristics.length ∧ characteristics.length ≤ 2 then
    .ok (coerceDates df, trendGroups df characteristics)
  else
    .error "Please specify one or two characteristics."

/-- C7: the trend renderer raises its precondition error exactly when the
number of selected characteristics is not 1 or 2, before any rendering
work; with 1 or 2 characteristics the error is never raised. -/
theorem plot_dual_precondition (df : List PRow) (characteristics : List String) :
    plot_dual_characteristics df characteristics =
        .error "Please specify one or two characteristics." ↔
      ¬(1 ≤ characteristics.length ∧ characteristics.length ≤ 2) := by
  unfold plot_dual_characteristics
  by_cases h : 1 ≤ characteristics.length ∧ characteristics.length ≤ 2 <;>
    simp [h]

theorem dateLe_total (a b : PRow) (h : dateLe a b = false) : dateLe b a = true := by
  unfold dateLe at h ⊢
  simp only [decide_eq_false_iff_not, not_le] at h
  simpa using le_of_lt h

theorem dateLe_trans (a b c : PRow) (hab : dateLe a b = true)
    (hbc : dateLe b c = true) : dateLe a c = true := by
  unfold dateLe at hab hbc ⊢
  simp only [decide_eq_true_eq] at hab hbc ⊢
  exact le_trans hab hbc

theorem mem_insertByDate (r y : PRow) :
    ∀ l : List PRow, y ∈ insertByDate r l ↔ y = r ∨ y ∈ l := by
  intro l
  induction l with
  | nil => simp [insertByDate]
  | cons x xs ih =>
      unfold insertByDate
      by_cases h : dateLe r x = true
      · simp [h]
      · rw [if_neg h]
        simp only [List.mem_cons, ih]
        tauto

theorem mem_sortByDate (y : PRow) :
    ∀ l : List PRow, y ∈ sortByDate l ↔ y ∈ l := by
  intro l
  induction l with
  | nil => simp [sortByDate]
  | cons x xs ih =>
      unfold sortByDate
      rw [mem_insertByDate, ih, List.mem_cons]

theorem insertByDate_pairwise (r : PRow) :
    ∀ l : List PRow, l.Pairwise (fun a b => dateLe a b = true) →
      (insertByDate r l).Pairwise (fun a b => dateLe a b = true) := by
  intro l
  induction l with
  | nil => intro _; simp [insertByDate]
  | cons x xs ih =>
      intro hp
      rw [List.pairwise_cons] at hp
      unfold insertByDate
      by_cases h : dateLe r x = true
      · rw [if_pos h, List.pairwise_cons]
        refine ⟨?_, List.pairwise_cons.2 hp⟩
        intro y hy
        rcases List.mem_cons.1 hy with hy | hy
        · subst hy; exact h
        · exact dateLe_trans r x y h (hp.1 y hy)
      · rw [if_neg h, List.pairwise_cons]
        refine ⟨?_, ih hp.2⟩
        intro y hy
        rcases (mem_insertByDate r y xs).1 hy with hy | hy
        · rw [hy]
          exact dateLe_total r x (Bool.eq_false_iff.2 h)
        · exact hp.1 y hy

theorem sortByDate_pairwise :
    ∀ l : List PRow,
      (sortByDate l).Pairwise (fun a b => dateLe a b = true) := by
  intro l
  induction l with
  | nil => simp [sortByDate]
  | cons x xs ih => exact insertByDate_pairwise x (sortByDate xs) ih

theorem mem_dropDupAux_id {α : Type} [DecidableEq α] :
    ∀ (seen : List α) (l : List α) (y : α),
      y ∈ dropDupAux id seen l ↔ y ∈ l ∧ y ∉ seen := by
  intro seen l
  induction l generalizing seen with
  | nil => intro y; simp [dropDupAux]
  | cons x xs ih =>
      intro y
      by_cases hx : x ∈ seen
      · simp only [dropDupAux, id_eq, if_pos hx, ih, List.mem_cons]
        constructor
        · exact fun h => ⟨Or.inr h.1, h.2⟩
        · rintro ⟨hy | hy, hns⟩
          · exact absurd (hy ▸ hx) hns
          · exact ⟨hy, hns⟩
      · simp only [dropDupAux, id_eq, if_neg hx, List.mem_cons, ih]
        by_cases hyx : y = x
        · subst hyx
          simp [hx]
        · simp only [hyx, false_or, List.mem_cons]

theorem dropDuplicatesBy_id_nodup {α : Type} [DecidableEq α] (l : List α) :
    (dropDuplicatesBy id l).Nodup := by
  have h := dropDupAux_pairwise (α := α) id [] l
  exact h.imp (fun hab => hab)

theorem dropDuplicatesBy_id_length {α : Type} [DecidableEq α] (l : List α) :
    (dropDuplicatesBy id l).length = l.toFinset.card := by
  have hnd := dropDuplicatesBy_id_nodup l
  have hfs : (dropDuplicatesBy id l).toFinset = l.toFinset := by
    apply Finset.ext
    intro a
    rw [List.mem_toFinset, List.mem_toFinset, dropDuplicatesBy,
      mem_dropDupAux_id]
    simp
  rw [← List.toFinset_card_of_nodup hnd, hfs]

/-- Refinement comparand following the spec's words: the number of distinct
(site, characteristic) pairs present after dropping rows with any missing
required field and restricting to the selected characteristics. -/
def specTrendPairCount (df : List PRow) (characteristics : List String) : Nat :=
  ((df.filter (fun r => (toDatetime r.date).isSome && r.value.isSome
      && characteristics.contains r.char)).map pairKey).toFinset.card

theorem trend_pairs_eq (df : List PRow) (characteristics : List String) :
    (((coerceDates df).filter rowComplete).filter
        (fun r => characteristics.contains r.char)).map pairKey =
      (df.filter (fun r => (toDatetime r.date).isSome && r.value.isSome
        && characteristics.contains r.char)).map pairKey := by
  unfold coerceDates
  rw [List.filter_filter, List.filter_map, List.map_map]
  have hpred : ((fun a =>
        characteristics.contains a.char && rowComplete a) ∘ coerceRow) =
      (fun r => (toDatetime r.date).isSome && r.value.isSome
        && characteristics.contains r.char) := by
    funext r
    exact Bool.and_comm _ _
  have hmap : pairKey ∘ coerceRow = pairKey := by
    funext r
    rfl
  rw [hpred, hmap]

/-- C6: with an admissible characteristic selection, the trend renderer
draws exactly one line per distinct (site, characteristic) pair present
after dropping incomplete rows and restricting to the selected
characteristics; each drawn group is sorted chronologically and carries the
"site - characteristic" label of its rows. -/
theorem trend_group_count (df : List PRow) (characteristics : List String)
    (h : 1 ≤ characteristics.length ∧ characteristics.length ≤ 2) :
    ∃ post groups,
      plot_dual_characteristics df characteristics = .ok (post, groups) ∧
      groups.length = specTrendPairCount df characteristics ∧
      ∀ g ∈ groups,
        g.2.Pairwise (fun a b => dateLe a b = true) ∧
        ∃ s c, g.1 = s ++ " - " ++ c ∧ ∀ r ∈ g.2, r.site = s ∧ r.char = c := by
  refine ⟨coerceDates df, trendGroups df characteristics, ?_, ?_, ?_⟩
  · simp [plot_dual_characteristics, h]
  · simp only [trendGroups]
    rw [List.length_map, dropDuplicatesBy_id_length, trend_pairs_eq]
    rfl
  · intro g hg
    simp only [trendGroups, List.mem_map] at hg
    obtain ⟨k, hk, hgk⟩ := hg
    subst hgk
    refine ⟨sortByDate_pairwise _, k.1, k.2, rfl, ?_⟩
    intro r hr
    have hr2 := (mem_sortByDate r _).1 hr
    rw [List.mem_filter] at hr2
    have hpk : pairKey r = k := by simpa using hr2.2
    exact ⟨congrArg Prod.fst hpk, congrArg Prod.snd hpk⟩

theorem trend_group_count_witness :
    ∃ post groups,
      plot_dual_characteristics
          [⟨"S1", "Lead", some 5, .d (some 20200101)⟩] ["Lead"] =
        .ok (post, groups) ∧
      groups.length =
        specTrendPairCount
          [⟨"S1", "Lead", some 5, .d (some 20200101)⟩] ["Lead"] ∧
      ∀ g ∈ groups,
        g.2.Pairwise (fun a b => dateLe a b = true) ∧
        ∃ s c, g.1 = s ++ " - " ++ c ∧ ∀ r ∈ g.2, r.site = s ∧ r.char = c :=
  trend_group_count [⟨"S1", "Lead", some 5, .d (some 20200101)⟩] ["Lead"]
    (by decide)

/-- C10: the trend renderer mutates its input: after a successful call the
caller's table has every date cell coerced to a date-typed cell (a text
cell becomes its parsed date, unparseable text becomes missing), while
`filter_data` leaves its input table unchanged. -/
theorem plot_dual_mutates_filter_pure (df : List PRow)
    (characteristics : List String) (mdf : MTable) (contaminant : String)
    (value_range : Rat × Rat) (date_range : Int × Int)
    (h : 1 ≤ characteristics.length ∧ characteristics.length ≤ 2) :
    (∃ post groups,
      plot_dual_characteristics df characteristics = .ok (post, groups) ∧
      List.Forall₂ (fun pr r =>
        pr.date = DCell.d (toDatetime r.date) ∧
        ∀ str, r.date = DCell.s str → pr.date = DCell.d (parseDate str))
        post df) ∧
    (filter_data mdf contaminant value_range date_range).1 = mdf := by
  constructor
  · refine ⟨coerceDates df, trendGroups df characteristics, ?_, ?_⟩
    · simp [plot_dual_characteristics, h]
    · unfold coerceDates
      rw [List.forall₂_map_left_iff, List.forall₂_same]
      intro r _
      constructor
      · rfl
      · intro str hstr
        simp [coerceRow, hstr, toDatetime]
  · rfl

theorem plot_dual_mutates_filter_pure_witness :
    (∃ (post : List PRow) (groups : List (String × List PRow)),
      plot_dual_characteristics
          [⟨"S1", "Lead", some 5, .s "2020-01-01"⟩] ["Lead"] =
        .ok (post, groups) ∧
      List.Forall₂ (fun (pr r : PRow) =>
        pr.date = DCell.d (toDatetime r.date) ∧
        ∀ str, r.date = DCell.s str → pr.date = DCell.d (parseDate str))
        post [⟨"S1", "Lead", some 5, .s "2020-01-01"⟩]) ∧
    (filter_data ⟨false, [exRow1]⟩ "Lead" (0, 10) (20200101, 20201231)).1 =
      ⟨false, [exRow1]⟩ :=
  plot_dual_mutates_filter_pure
    [⟨"S1", "Lead", some 5, .s "2020-01-01"⟩] ["Lead"]
    ⟨false, [exRow1]⟩ "Lead" (0, 10) (20200101, 20201231) (by decide)

/-- One row of the uploaded contaminant CSV, fields still raw text. -/
structure RawMRow where
  site : String
  char : String
  valueS : String
  dateS : String
  latS : String
  lonS : String
  deriving DecidableEq, Repr

/-- The uploaded contaminant CSV: the flags record which of the columns the
loader touches are actually present in the file. -/
structure RawMTable where
  hasValueCol : Bool
  hasDateCol : Bool
  hasLoc : Bool
  rows : List RawMRow
  deriving DecidableEq, Repr

/-- `load_contaminant_data` (streamlit_app.py lines 45-52): read the CSV
and coerce ResultMeasureValue with `to_numeric` and ActivityStartDate with
`to_datetime` (both with `errors=coerce`); indexing an absent column raises
a KeyError, which nothing in this function catches. -/
def load_contaminant_data (t : RawMTable) : Except String MTable :=
  if ¬t.hasValueCol then .error "KeyError: ResultMeasureValue"
  else if ¬t.hasDateCol then .error "KeyError: ActivityStartDate"
  else .ok ⟨t.hasLoc, t.rows.map (fun r =>
    ⟨r.site, r.char, (toNumeric r.valueS).bind PFloat.toFinite,
     parseDate r.dateS,
     if t.hasLoc then toNumeric r.latS else none,
     if t.hasLoc then toNumeric r.lonS else none⟩)⟩

/-- View a typed measurement table as the trend renderer's input: the date
column is already datetime-typed. -/
def toPTable (df : MTable) : List PRow :=
  df.rows.map (fun r => ⟨r.site, r.char, r.value, .d r.date⟩)

/-- The contaminant branch of `app` (streamlit_app.py lines 138-165): load
the upload, filter by the user's selections, render the filtered map and
the trend plot.  The branch contains no try/except, so any exception
raised below propagates out of `app`. -/
def appContaminantBranch (upload : RawMTable) (contaminant : String)
    (value_range : Rat × Rat) (date_range : Int × Int) :
    Except String (FMap × (List PRow × List (String × List PRow))) := do
  let df ← load_contaminant_data upload
  let filtered_df := (filter_data df contaminant value_range date_range).2
  let map_display ← plot_filtered_map filtered_df
  let trend ← plot_dual_characteristics (toPTable filtered_df) [contaminant]
  pure (map_display, trend)

/-- C4 counterexample: an upload lacking the required ResultMeasureValue
column makes the whole app branch end in an uncaught KeyError — processing
does not halt behind a user-visible message, the exception escapes. -/
theorem app_missing_column_uncaught :
    appContaminantBranch ⟨false, true, false, [⟨"S1", "Lead", "5", "2020-01-01", "", ""⟩]⟩
        "Lead" (0, 10) (20200101, 20201231) =
      .error "KeyError: ResultMeasureValue" := by
  rfl

/-- C4 amended: a contaminant upload missing a required column makes
`load_contaminant_data` raise a KeyError, and because the app installs no
handler the same exception propagates out of the contaminant branch of
`app`; no in-code user-visible message exists (the hosting framework, not
this code, displays the traceback). -/
theorem app_missing_column_propagates (upload : RawMTable)
    (contaminant : String) (value_range : Rat × Rat) (date_range : Int × Int)
    (h : upload.hasValueCol = false) :
    load_contaminant_data upload = .error "KeyError: ResultMeasureValue" ∧
    appContaminantBranch upload contaminant value_range date_range =
      .error "KeyError: ResultMeasureValue" := by
  have hl : load_contaminant_data upload =
      .error "KeyError: ResultMeasureValue" := by
    simp [load_contaminant_data, h]
  refine ⟨hl, ?_⟩
  unfold appContaminantBranch
  rw [hl]
  rfl

theorem app_missing_column_propagates_witness :
    load_contaminant_data ⟨false, true, false, []⟩ =
      .error "KeyError: ResultMeasureValue" ∧
    appContaminantBranch ⟨false, true, false, []⟩ "Lead" (0, 10)
        (20200101, 20201231) =
      .error "KeyError: ResultMeasureValue" :=
  app_missing_column_propagates ⟨false, true, false, []⟩ "Lead" (0, 10)
    (20200101, 20201231) rfl
